import Mathlib

/-!
Verification of the mcp-bundler core: the bundle/connection data model
(Alpine stores in `src/unnamed/part_005`), the package-configuration
synthesizer (`src/js/serverUtils.js`), the binary bundle share codec
(`packBundle` / `unpackBundle` / `importFromURL` in `src/unnamed/part_003`),
and the cache store (`src/js/store.js`, `src/unnamed/part_005`).

The JavaScript is shallowly embedded: JavaScript strings are Lean `String`s
(or lists of UTF-16 code units where the codec's encoding behaviour matters),
string-or-undefined fields are `Option String`, JavaScript objects used as
string-keyed maps are association lists with unique keys maintained by
`objSet`, and thrown exceptions are `Except` errors.  Truthiness of a
string-or-undefined value is `none`-or-empty versus everything else, which
matches JavaScript for the values that occur here (strings and undefined).
-/

namespace MCPBundler

/-- Truthiness of a JavaScript string-or-undefined value: `undefined`, `null`
and the empty string are falsy, every other string is truthy. -/
def truthyS : Option String → Bool
  | some s => s ≠ ""
  | none => false

/-- The JavaScript expression `a || b` on string-or-undefined values. -/
def orS (a b : Option String) : Option String :=
  if truthyS a then a else b

/-- The JavaScript expression `a || d` where `d` is a string literal. -/
def jsOrD (a : Option String) (d : String) : String :=
  match a with
  | some s => if s = "" then d else s
  | none => d

/-- Contiguous-sublist test used to model `String.prototype.includes`. -/
def listInfix (sub : List Char) : List Char → Bool
  | [] => sub.isPrefixOf []
  | c :: rest => sub.isPrefixOf (c :: rest) || listInfix sub rest

/-- JavaScript `String.prototype.includes`: substring test. -/
def jsIncludes (s sub : String) : Bool :=
  listInfix sub.toList s.toList

/-- JavaScript `String.prototype.replace` with a string pattern: replaces the
first occurrence only. -/
def replaceFirstAux (pat rep : List Char) : List Char → List Char
  | [] => []
  | c :: rest =>
    if pat.isPrefixOf (c :: rest) then rep ++ (c :: rest).drop pat.length
    else c :: replaceFirstAux pat rep rest

/-- JavaScript `s.replace(pat, rep)` for string patterns (first occurrence). -/
def replaceFirst (s pat rep : String) : String :=
  ⟨replaceFirstAux pat.toList rep.toList s.toList⟩

/-- JavaScript `String.prototype.toUpperCase` (the env-var names it is applied
to are ASCII, where `Char.toUpper` agrees with JavaScript). -/
def jsToUpper (s : String) : String :=
  ⟨s.toList.map Char.toUpper⟩

/-- Assignment `m[k] = v` on a JavaScript object used as a map: replaces the
value in place if the key exists, otherwise appends the key. -/
def objSet {β : Type} (m : List (String × β)) (k : String) (v : β) :
    List (String × β) :=
  if m.any (fun p => p.1 = k) then
    m.map (fun p => if p.1 = k then (k, v) else p)
  else m ++ [(k, v)]

/-- Property read `m[k]` on a JavaScript object used as a map. -/
def objGet {β : Type} (m : List (String × β)) (k : String) : Option β :=
  (m.find? (fun p => p.1 = k)).map (fun p => p.2)

/-- JavaScript `delete m[k]`. -/
def objDelete {β : Type} (m : List (String × β)) (k : String) :
    List (String × β) :=
  m.filter (fun p => p.1 ≠ k)

/-- The `\x24\x7bNAME\x7d` environment-variable placeholder emitted by the
synthesizer (backtick template `\x24\x7b` + name + `\x7d` in the source). -/
def placeholder (n : String) : String :=
  "$\x7b" ++ n ++ "\x7d"

/-! ## Data model of `serverUtils.js` -/

/-- An `environment_variables` entry of a package (`EnvironmentVariableSpec`).
The source checks `is_required` / `is_secret` by truthiness, which `Bool`
models; `default` may be absent (`none`) and is checked by truthiness. -/
structure EnvVar where
  name : String
  is_required : Bool
  is_secret : Bool
  default : Option String
deriving DecidableEq, Repr

/-- A `package_arguments` entry (`PackageArgumentSpec`).  `type` is the string
tag (`"named"`, `"positional"`, `"url"`, `"header"`); `value` may be absent;
`id` orders positional Docker arguments (`.sort((a, b) => a.id - b.id)`). -/
structure PackageArg where
  type : String
  name : String
  value : Option String
  id : Nat
deriving DecidableEq, Repr

/-- A catalogue package as consumed by `serverUtils.js`. -/
structure Package where
  registry_name : String
  package_name : Option String
  name : Option String
  runtime_hint : Option String
  environment_variables : Option (List EnvVar)
  package_arguments : Option (List PackageArg)
deriving DecidableEq, Repr

/-- A synthesized launcher configuration: either the remote shape
`\x7b type, url, headers? \x7d` or the command shape
`\x7b command, args, env \x7d`.  `args` elements are `Option String` because
the source can push an undefined `packageName` into the array. -/
inductive LauncherConfig where
  | remote (type : String) (url : String)
      (headers : Option (List (String × Option String)))
  | cmd (command : String) (args : List (Option String))
      (env : List (String × String))
deriving DecidableEq, Repr

/-- `getDefaultRuntime(registryName)` from `serverUtils.js`. -/
def getDefaultRuntime (registryName : String) : String :=
  if registryName = "npm" then "npx"
  else if registryName = "pypi" then "uvx"
  else if registryName = "docker" then "docker"
  else if registryName = "nuget" then "dnx"
  else "npx"

/-- `getKnownRemoteURL(packageName)` from `serverUtils.js`: a two-entry lookup
table, `null` (here `none`) otherwise. -/
def getKnownRemoteURL (packageName : Option String) : Option String :=
  match packageName with
  | some "github" => some "https://api.githubcopilot.com/mcp/"
  | some "https://api.githubcopilot.com/mcp/" =>
      some "https://api.githubcopilot.com/mcp/"
  | _ => none

/-- Loop body of `buildPackageEnv` from `serverUtils.js`: a required variable
gets a placeholder (secret) or its default-or-placeholder (non-secret); an
optional variable with a truthy default gets that default. -/
def buildPackageEnvStep (env : List (String × String)) (v : EnvVar) :
    List (String × String) :=
  if v.is_required then
    objSet env v.name
      (if v.is_secret then placeholder v.name
       else jsOrD v.default (placeholder v.name))
  else
    match v.default with
    | some d => if d ≠ "" then objSet env v.name d else env
    | none => env

/-- `buildPackageEnv(envVars)` iterates `buildPackageEnvStep` over the
variable list (`envVars.forEach`). -/
def buildPackageEnv (envVars : Option (List EnvVar)) :
    List (String × String) :=
  match envVars with
  | none => []
  | some vs => vs.foldl buildPackageEnvStep []

/-- Loop body of the header-inference fallback of `buildAuthHeaders`: a
secret env var whose upper-cased truthy name contains `TOKEN` or `KEY` sets
an `Authorization: Bearer` placeholder header. -/
def inferAuthHeaderStep (hs : List (String × Option String)) (e : EnvVar) :
    List (String × Option String) :=
  if e.is_secret ∧ e.name ≠ "" then
    let envName := jsToUpper e.name
    if jsIncludes envName "TOKEN" ∨ jsIncludes envName "KEY" then
      objSet hs "Authorization" (some ("Bearer " ++ placeholder e.name))
    else hs
  else hs

/-- `buildAuthHeaders(envVars, packageArgs)` from `serverUtils.js`: replay
stored `header`-typed arguments (substituting placeholder-looking values by
the best-matching env var); if none were stored, infer one
`Authorization: Bearer` placeholder header from a secret env var whose
upper-cased name contains `TOKEN` or `KEY`. -/
def buildAuthHeaders (envVars : List EnvVar) (packageArgs : List PackageArg) :
    List (String × Option String) :=
  let headers : List (String × Option String) :=
    (packageArgs.filter (fun a => a.type = "header")).foldl
      (fun hs arg =>
        let value : Option String :=
          match arg.value with
          | some v =>
            if v ≠ "" ∧ (jsIncludes v "YOUR_" ∨ jsIncludes v "API_KEY" ∨
                jsIncludes v "TOKEN") then
              match envVars.find? (fun e =>
                  e.name = v ∨ jsIncludes e.name (replaceFirst v "YOUR_" "") ∨
                  jsIncludes v e.name) with
              | some e => some (placeholder e.name)
              | none => some v
            else some v
          | none => none
        objSet hs arg.name value)
      []
  if headers.length = 0 then envVars.foldl inferAuthHeaderStep []
  else headers

/-- `buildPackageArgs(pkg)` from `serverUtils.js`: replay stored named and
positional arguments (filtering Docker bootstrap tokens out of positionals),
append the package name when missing, and degenerate to `[packageName]` when
nothing was stored at all. -/
def buildPackageArgs (pkg : Package) : List (Option String) :=
  let args : List (Option String) :=
    match pkg.package_arguments with
    | none => []
    | some pas =>
      (pas.filter (fun arg =>
          arg.type = "named" ∨
          (arg.type = "positional" ∧
            ¬ ([some "run", some "-i", some "--rm", some "-e"].contains
                arg.value)))).foldl
        (fun args arg =>
          if arg.type = "named" then
            let args := args ++ [some arg.name]
            match arg.value with
            | some v => if v ≠ "" then args ++ [some v] else args
            | none => args
          else if arg.type = "positional" then args ++ [arg.value]
          else args)
        []
  let packageName : Option String := orS pkg.package_name pkg.name
  let args :=
    match packageName with
    | some p => if p ≠ "" ∧ ¬ args.contains (some p) then args ++ [some p]
        else args
    | none => args
  if args.length = 0 then [packageName] else args

/-- `buildDockerArgs(pkg)` from `serverUtils.js`: replay stored positional
arguments in `id` order, or fall back to `run -i --rm` with one `-e NAME`
pair per required-or-secret env var, ending with the image name. -/
def buildDockerArgs (pkg : Package) : List (Option String) :=
  let fallback : List (Option String) :=
    ([some "run", some "-i", some "--rm"] ++
      (match pkg.environment_variables with
       | none => []
       | some vs =>
         vs.foldl
           (fun acc e =>
             if e.is_required ∨ e.is_secret then acc ++ [some "-e", some e.name]
             else acc)
           [])) ++ [pkg.package_name]
  match pkg.package_arguments with
  | none => fallback
  | some pas =>
    if pas.length > 0 then
      let positionalArgs :=
        ((pas.filter (fun a => a.type = "positional")).mergeSort
          (fun a b => a.id ≤ b.id)).map (fun a => a.value)
      if positionalArgs.length > 0 then positionalArgs else fallback
    else fallback

/-- `buildRemotePackageConfig(pkg)` from `serverUtils.js`. -/
def buildRemotePackageConfig (pkg : Package) : LauncherConfig :=
  let urlArg := (pkg.package_arguments.getD []).find?
    (fun a => a.type = "url" ∧ a.name = "endpoint")
  let url := jsOrD (orS (urlArg.bind (fun a => a.value))
      (getKnownRemoteURL pkg.package_name)) "https://example.com/mcp"
  let type := jsOrD ((pkg.package_arguments.getD []).find?
      (fun a => a.name = "type") |>.bind (fun a => a.value)) "http"
  let headers := buildAuthHeaders (pkg.environment_variables.getD [])
    (pkg.package_arguments.getD [])
  LauncherConfig.remote type url
    (if headers.length > 0 then some headers else none)

/-- `buildDockerPackageConfig(pkg)` from `serverUtils.js`. -/
def buildDockerPackageConfig (pkg : Package) : LauncherConfig :=
  LauncherConfig.cmd "docker" (buildDockerArgs pkg)
    (buildPackageEnv pkg.environment_variables)

/-- `buildPackageConfig(pkg)` from `serverUtils.js`: dispatch on
`registry_name` (`remote`, `docker`, default npm/pypi path). -/
def buildPackageConfig (pkg : Package) : LauncherConfig :=
  if pkg.registry_name = "remote" then buildRemotePackageConfig pkg
  else if pkg.registry_name = "docker" then buildDockerPackageConfig pkg
  else
    LauncherConfig.cmd (jsOrD pkg.runtime_hint
        (getDefaultRuntime pkg.registry_name))
      (buildPackageArgs pkg) (buildPackageEnv pkg.environment_variables)

/-! ## Bundle and connection stores (`src/unnamed/part_005`)

Bundle `updated` timestamps are ISO strings produced by
`new Date().toISOString()`; the current instant is passed in explicitly as a
`now : String` parameter.  A bundle's `servers` element is either a legacy
plain id string or a `\x7b serverId, packageIndex, connectionId \x7d` object,
mirrored by the two constructors of `BServer`. -/

/-- One element of `bundle.servers`: legacy string or new-format object. -/
inductive BServer where
  | legacy (s : String)
  | entry (serverId : String) (packageIndex : Nat) (connectionId : Option String)
deriving DecidableEq, Repr

/-- The duplicated membership test
`(typeof s === 'string' && s === serverId) ||
(typeof s === 'object' && s.serverId === serverId)`. -/
def BServer.matchesSid (s : BServer) (serverId : String) : Bool :=
  match s with
  | .legacy str => str = serverId
  | .entry sid _ _ => sid = serverId

/-- A stored bundle.  `servers`, `serverConnections` and `connections` may be
absent (`undefined`) on data loaded from storage, hence `Option`; the
`connections` field is read by the connection registry's delete check but is
never written by any operation in the sources. -/
structure Bundle where
  id : String
  name : String
  description : String
  servers : Option (List BServer)
  serverConnections : Option (List (String × String))
  connections : Option (List String)
  created : String
  updated : String
deriving DecidableEq, Repr

/-- A stored connection of the connection registry. -/
structure Connection where
  id : String
  name : String
  serverId : String
  packageId : String
  credentials : List (String × String)
  created : String
  updated : String
deriving DecidableEq, Repr

/-- Errors thrown by the store operations (`throw new Error(...)`). -/
inductive StoreErr where
  | bundleNotFound
  | serverNotInBundle
  | connectionNotFound
  | connectionInUse
deriving DecidableEq, Repr

/-- `Alpine.store('bundles').getById`: first bundle with the given id. -/
def getById (items : List Bundle) (bundleId : String) : Option Bundle :=
  items.find? (fun b => b.id = bundleId)

/-- Applies `f` to the first element satisfying `p`, the JavaScript effect of
mutating the object returned by `find`. -/
def mapFirst {α : Type} (p : α → Bool) (f : α → α) : List α → List α
  | [] => []
  | x :: xs => if p x then f x :: xs else x :: mapFirst p f xs

/-- Whether the bundle has an entry for `serverId`
(`bundle.servers && bundle.servers.some(...)`; an absent array is falsy). -/
def hasEntry (b : Bundle) (serverId : String) : Bool :=
  match b.servers with
  | none => false
  | some l => l.any (fun s => s.matchesSid serverId)

/-- The mutation `addServer` performs on the bundle it found: initialise
`servers` if absent, then push a new-format entry unless `serverId` is
already present (dedup ignores `packageIndex`). -/
def addServerB (b : Bundle) (serverId : String) (packageIndex : Nat)
    (now : String) : Bundle :=
  let servers := match b.servers with | none => [] | some l => l
  if servers.any (fun s => s.matchesSid serverId) then
    { b with servers := some servers }
  else
    { b with
        servers := some (servers ++ [.entry serverId packageIndex none]),
        updated := now }

/-- `bundles.addServer(bundleId, serverId, packageIndex = 0)`: throws
`Bundle not found` when the id is absent, otherwise mutates the found
bundle.  The updated store state is returned. -/
def addServer (items : List Bundle) (bundleId serverId : String)
    (packageIndex : Nat) (now : String) : Except StoreErr (List Bundle) :=
  match getById items bundleId with
  | none => .error .bundleNotFound
  | some _ =>
    .ok (mapFirst (fun b => b.id = bundleId)
      (fun b => addServerB b serverId packageIndex now) items)

/-- Removes the element at `i` (`Array.prototype.splice(i, 1)`). -/
def spliceOut {α : Type} (l : List α) (i : Nat) : List α :=
  l.take i ++ l.drop (i + 1)

/-- The mutation `removeServer` performs on the bundle it found: splice the
first matching entry out and delete a truthy `serverConnections` mapping. -/
def removeServerB (b : Bundle) (serverId : String) (now : String) : Bundle :=
  match b.servers with
  | none => b
  | some servers =>
    match servers.findIdx? (fun s => s.matchesSid serverId) with
    | none => b
    | some i =>
      let sc :=
        match b.serverConnections with
        | none => none
        | some m =>
          match objGet m serverId with
          | some v => if v ≠ "" then some (objDelete m serverId) else some m
          | none => some m
      { b with
          servers := some (spliceOut servers i),
          serverConnections := sc,
          updated := now }

/-- `bundles.removeServer(bundleId, serverId)`. -/
def removeServer (items : List Bundle) (bundleId serverId : String)
    (now : String) : Except StoreErr (List Bundle) :=
  match getById items bundleId with
  | none => .error .bundleNotFound
  | some _ =>
    .ok (mapFirst (fun b => b.id = bundleId)
      (fun b => removeServerB b serverId now) items)

/-- The mutation `attachConnection` performs on the bundle it found:
initialise `serverConnections` if absent and set the mapping. -/
def attachConnectionB (b : Bundle) (serverId connectionId : String)
    (now : String) : Bundle :=
  let sc := match b.serverConnections with | none => [] | some m => m
  { b with
      serverConnections := some (objSet sc serverId connectionId),
      updated := now }

/-- `bundles.attachConnection(bundleId, serverId, connectionId)`: throws
`Bundle not found` / `Server not in bundle`, otherwise sets the mapping and
refreshes `updated`.  No property of `connectionId` is checked. -/
def attachConnection (items : List Bundle) (bundleId serverId connectionId : String)
    (now : String) : Except StoreErr (List Bundle) :=
  match getById items bundleId with
  | none => .error .bundleNotFound
  | some b =>
    if hasEntry b serverId then
      .ok (mapFirst (fun b => b.id = bundleId)
        (fun b => attachConnectionB b serverId connectionId now) items)
    else .error .serverNotInBundle

/-- The mutation `detachConnection` performs on the bundle it found: delete
the mapping when it is present and truthy, else leave the bundle alone. -/
def detachConnectionB (b : Bundle) (serverId : String) (now : String) : Bundle :=
  match b.serverConnections with
  | none => b
  | some m =>
    match objGet m serverId with
    | some v =>
      if v ≠ "" then
        { b with serverConnections := some (objDelete m serverId), updated := now }
      else b
    | none => b

/-- `bundles.detachConnection(bundleId, serverId)`. -/
def detachConnection (items : List Bundle) (bundleId serverId : String)
    (now : String) : Except StoreErr (List Bundle) :=
  match getById items bundleId with
  | none => .error .bundleNotFound
  | some _ =>
    .ok (mapFirst (fun b => b.id = bundleId)
      (fun b => detachConnectionB b serverId now) items)

/-- `connections.get(connectionId)`: `Array.prototype.find`. -/
def connGet (conns : List Connection) (connectionId : String) :
    Option Connection :=
  conns.find? (fun c => c.id = connectionId)

/-- `bundles.getServerConnection(bundleId, serverId)`: resolves the stored
mapping through the connection registry; `null` when the bundle or mapping is
absent or the stored id is falsy. -/
def getServerConnection (conns : List Connection) (items : List Bundle)
    (bundleId serverId : String) : Option Connection :=
  match getById items bundleId with
  | none => none
  | some b =>
    match b.serverConnections with
    | none => none
    | some m =>
      match objGet m serverId with
      | some cid => if cid ≠ "" then connGet conns cid else none
      | none => none

/-- `connections.delete(connectionId)`: throws `Connection not found` when the
id is absent; throws the in-use conflict when some bundle's `connections`
array contains the id (the source reads `bundle.connections`, not
`bundle.serverConnections`); otherwise splices the connection out. -/
def connDelete (conns : List Connection) (bundles : List Bundle)
    (connectionId : String) : Except StoreErr (List Connection) :=
  match conns.findIdx? (fun c => c.id = connectionId) with
  | none => .error .connectionNotFound
  | some i =>
    let isUsed := bundles.any (fun b =>
      match b.connections with
      | some l => l.contains connectionId
      | none => false)
    if isUsed then .error .connectionInUse
    else .ok (spliceOut conns i)

/-! ## Cache store (`src/js/store.js` lines 304-362, identically
`src/unnamed/part_005` lines 514-572) -/

/-- A cache record `\x7b data, timestamp, maxAge \x7d` as written by
`cache.set`; `maxAge` is `null` unless the caller passed one. -/
structure CacheEntry where
  data : String
  timestamp : Nat
  maxAge : Option Nat
deriving DecidableEq, Repr

/-- `cache.set(key, data, maxAge = null)` at instant `now` (`Date.now()`,
milliseconds). -/
def cacheSet (st : List (String × CacheEntry)) (key data : String)
    (maxAge : Option Nat) (now : Nat) : List (String × CacheEntry) :=
  objSet st key ⟨data, now, maxAge⟩

/-- `cache.get(key)` at instant `now`: returns the data unless the entry is
older than a hard-coded 24 hours, in which case the entry is removed and
`null` returned.  Result is `(value, new cache state)`. -/
def cacheGet (st : List (String × CacheEntry)) (key : String) (now : Nat) :
    Option String × List (String × CacheEntry) :=
  match objGet st key with
  | none => (none, st)
  | some cached =>
    let maxAge := 24 * 60 * 60 * 1000
    if now - cached.timestamp > maxAge then (none, objDelete st key)
    else (some cached.data, st)

/-! ## Binary share codec (`packBundle` / `unpackBundle`,
`src/unnamed/part_003` lines 1294-1383)

JavaScript strings are UTF-16, so the bundle name is modelled as a list of
UTF-16 code units (`Nat`s below `2 ^ 16`); `substring(0, 50)` is `take 50` on
code units and `TextEncoder().encode` is `utf8EncodeUnits`, including the
replacement character U+FFFD for lone surrogates.  Byte sequences are
`List Nat` with elements below 256. -/

/-- High-surrogate test for a UTF-16 code unit. -/
def isHighSurrogate (u : Nat) : Bool :=
  0xD800 ≤ u ∧ u ≤ 0xDBFF

/-- Low-surrogate test for a UTF-16 code unit. -/
def isLowSurrogate (u : Nat) : Bool :=
  0xDC00 ≤ u ∧ u ≤ 0xDFFF

/-- UTF-8 encoding of a single Unicode code point. -/
def encodeCodepoint (c : Nat) : List Nat :=
  if c < 0x80 then [c]
  else if c < 0x800 then [0xC0 + c / 64, 0x80 + c % 64]
  else if c < 0x10000 then
    [0xE0 + c / 4096, 0x80 + c / 64 % 64, 0x80 + c % 64]
  else
    [0xF0 + c / 0x40000, 0x80 + c / 4096 % 64, 0x80 + c / 64 % 64,
      0x80 + c % 64]

/-- `TextEncoder().encode` on a UTF-16 code-unit sequence: surrogate pairs
combine into one code point, lone surrogates become U+FFFD. -/
def utf8EncodeUnits : List Nat → List Nat
  | [] => []
  | [u] =>
    if isHighSurrogate u ∨ isLowSurrogate u then encodeCodepoint 0xFFFD
    else encodeCodepoint u
  | u :: l :: rest =>
    if isHighSurrogate u then
      if isLowSurrogate l then
        encodeCodepoint (0x10000 + (u - 0xD800) * 0x400 + (l - 0xDC00)) ++
          utf8EncodeUnits rest
      else encodeCodepoint 0xFFFD ++ utf8EncodeUnits (l :: rest)
    else if isLowSurrogate u then
      encodeCodepoint 0xFFFD ++ utf8EncodeUnits (l :: rest)
    else encodeCodepoint u ++ utf8EncodeUnits (l :: rest)

/-- Hexadecimal digit test (`parseInt(..., 16)` accepts both cases); stated
on `Char.toNat` (48-57 are `0`-`9`, 97-102 are `a`-`f`, 65-70 are `A`-`F`). -/
def isHexDigitChar (c : Char) : Bool :=
  (48 ≤ c.toNat ∧ c.toNat ≤ 57) ∨ (97 ≤ c.toNat ∧ c.toNat ≤ 102) ∨
    (65 ≤ c.toNat ∧ c.toNat ≤ 70)

/-- Numeric value of a hexadecimal digit. -/
def hexVal (c : Char) : Nat :=
  if c.toNat ≤ 57 then c.toNat - 48
  else if c.toNat ≤ 70 then c.toNat - 55
  else c.toNat - 87

/-- Value of a list of hexadecimal digits, most significant first. -/
def parseHexDigits (ds : List Char) : Nat :=
  ds.foldl (fun a c => a * 16 + hexVal c) 0

/-- `parseInt(s, 16)`: skip an optional `0x` prefix, read the maximal leading
run of hexadecimal digits, `NaN` (`none`) when there is none.  (The builtin
also skips leading whitespace and a sign, which never occur in the server ids
this is applied to.) -/
def jsParseIntHex (cs : List Char) : Option Nat :=
  let cs2 :=
    match cs with
    | c0 :: c1 :: rest =>
      if c0 = '0' ∧ (c1 = 'x' ∨ c1 = 'X') then rest else cs
    | _ => cs
  let digits := cs2.takeWhile isHexDigitChar
  if digits.isEmpty then none else some (parseHexDigits digits)

/-- Big-endian bytes written by `DataView.setUint32` (the value is coerced
modulo `2 ^ 32`; `NaN` from a failed `parseInt` coerces to 0). -/
def u32be (n : Option Nat) : List Nat :=
  match n with
  | none => [0, 0, 0, 0]
  | some n => [n / 2 ^ 24 % 256, n / 2 ^ 16 % 256, n / 2 ^ 8 % 256, n % 256]

/-- Lowercase hexadecimal digit character, as produced by
`Number.prototype.toString(16)`. -/
def hexDigitChar (n : Nat) : Char :=
  if n < 10 then Char.ofNat (48 + n) else Char.ofNat (87 + n)

/-- Digit list of `n.toString(16)` (empty for 0); `fuel` bounds the number of
digits and is always called with enough for the 32-bit values decoded here. -/
def toHexAux : Nat → Nat → List Char
  | 0, _ => []
  | fuel + 1, n =>
    if n = 0 then [] else toHexAux fuel (n / 16) ++ [hexDigitChar (n % 16)]

/-- `serverInt.toString(16).padStart(8, '0')` for `serverInt < 2 ^ 32`. -/
def toHex8 (n : Nat) : String :=
  let ds := toHexAux 8 n
  ⟨List.replicate (8 - ds.length) '0' ++ ds⟩

/-- Errors of the codec: the name-length guard of `packBundle` and the
`RangeError` a `DataView` read past the end throws in `unpackBundle`. -/
inductive CodecErr where
  | nameTooLong
  | range
deriving DecidableEq, Repr

/-- The bundle fields read by `packBundle`: `name` (UTF-16 code units, may be
absent) and `servers` (legacy strings or entry objects, may be absent). -/
structure ShareBundle where
  name : Option (List Nat)
  servers : Option (List BServer)
deriving DecidableEq, Repr

/-- The `typeof serverEntry === 'string' ? serverEntry : serverEntry.serverId`
read used by the codec and the importer. -/
def entrySid (s : BServer) : String :=
  match s with
  | .legacy str => str
  | .entry sid _ _ => sid

/-- `packBundle(bundle)` at Unix second `now` (`Math.floor(Date.now()/1000)`):
truncate the name to 50 UTF-16 code units, UTF-8 encode it, fail when the
encoding exceeds 255 bytes, then lay out
`[nameLength, timestamp (4 bytes BE), name bytes, 4 bytes BE per server]`
where each server contributes `parseInt(serverId.substring(0, 8), 16)`. -/
def packBundle (now : Nat) (b : ShareBundle) : Except CodecErr (List Nat) :=
  let name := (b.name.getD []).take 50
  let nameBytes := utf8EncodeUnits name
  if nameBytes.length > 255 then .error .nameTooLong
  else
    let serverIds := (b.servers.getD []).map
      (fun s => (entrySid s).toList.take 8)
    .ok ([nameBytes.length] ++ u32be (some now) ++ nameBytes ++
      (serverIds.map (fun sid8 => u32be (jsParseIntHex sid8))).flatten)

/-- The trailing `while (offset < binaryData.length)` loop of `unpackBundle`:
read big-endian 4-byte groups until the input is exhausted; a leftover group
shorter than 4 bytes makes `getUint32` throw a `RangeError`. -/
def readU32Groups : List Nat → Except CodecErr (List Nat)
  | [] => .ok []
  | a :: b :: c :: d :: rest =>
    (readU32Groups rest).map
      (fun xs => (a * 2 ^ 24 + b * 2 ^ 16 + c * 2 ^ 8 + d) :: xs)
  | _ => .error .range

/-- The decoded form returned by `unpackBundle`.  `nameBytes` is the raw name
byte slice; the source decodes it with `TextDecoder`, which no verified
property inspects, so the decoding step is left as the identity on bytes. -/
structure Unpacked where
  nameBytes : List Nat
  sharedTime : Nat
  servers : List String
deriving DecidableEq, Repr

/-- `unpackBundle(binaryData)`: read the 1-byte name length, a 4-byte
big-endian timestamp, the (clamped) name slice, then 4-byte server groups,
each rendered as 8 zero-padded lowercase hex characters. -/
def unpackBundle (bytes : List Nat) : Except CodecErr Unpacked :=
  match bytes with
  | nameLength :: rest =>
    match rest with
    | t0 :: t1 :: t2 :: t3 :: _ =>
      let sharedTime := t0 * 2 ^ 24 + t1 * 2 ^ 16 + t2 * 2 ^ 8 + t3
      let nameBytes := (bytes.drop 5).take nameLength
      (readU32Groups (bytes.drop (5 + nameLength))).map
        (fun groups => ⟨nameBytes, sharedTime, groups.map toHex8⟩)
    | _ => .error .range
  | [] => .error .range

/-! ## Decode path of `importFromURL` (`src/unnamed/part_003` lines 1475-1487)

After the Base64 layer, `importFromURL` holds a byte sequence (`atob` yields
one 0-255 code unit per byte).  It first tries `JSON.parse` on it and falls
back to `unpackBundle` only when JSON parsing throws.  `JSON.parse` is a
platform builtin; it is modelled by a recursive-descent parser of the JSON
grammar (ECMA-404) over code units.  The parsers take a fuel argument that
every recursive call decrements only after at least one unit of input has
been consumed, so fuel `length + 1` never runs out on inputs the grammar
accepts. -/

/-- A parsed JSON value.  Strings are code-unit lists; a number keeps its raw
source units (its numeric value is never consumed by the import path). -/
inductive JVal where
  | jnull
  | jbool (b : Bool)
  | jnum (raw : List Nat)
  | jstr (units : List Nat)
  | jarr (elems : List JVal)
  | jobj (fields : List (List Nat × JVal))

/-- JSON whitespace skip (space, tab, line feed, carriage return). -/
def skipWs (l : List Nat) : List Nat :=
  l.dropWhile (fun c => c = 0x20 ∨ c = 0x09 ∨ c = 0x0A ∨ c = 0x0D)

/-- Decimal digit test on a code unit. -/
def isDigitU (u : Nat) : Bool :=
  0x30 ≤ u ∧ u ≤ 0x39

/-- Hexadecimal digit value of a code unit (for `\u` escapes). -/
def hexValU (u : Nat) : Option Nat :=
  if 0x30 ≤ u ∧ u ≤ 0x39 then some (u - 0x30)
  else if 0x41 ≤ u ∧ u ≤ 0x46 then some (u - 55)
  else if 0x61 ≤ u ∧ u ≤ 0x66 then some (u - 87)
  else none

/-- JSON string body after the opening quote: yields the decoded units and
the remaining input after the closing quote. -/
def parseStringBody : Nat → List Nat → Option (List Nat × List Nat)
  | 0, _ => none
  | _ + 1, [] => none
  | fuel + 1, c :: rest =>
    if c = 0x22 then some ([], rest)
    else if c = 0x5C then
      match rest with
      | [] => none
      | e :: r2 =>
        if e = 0x22 ∨ e = 0x5C ∨ e = 0x2F then
          (parseStringBody fuel r2).map (fun p => (e :: p.1, p.2))
        else if e = 0x62 then
          (parseStringBody fuel r2).map (fun p => (8 :: p.1, p.2))
        else if e = 0x66 then
          (parseStringBody fuel r2).map (fun p => (12 :: p.1, p.2))
        else if e = 0x6E then
          (parseStringBody fuel r2).map (fun p => (10 :: p.1, p.2))
        else if e = 0x72 then
          (parseStringBody fuel r2).map (fun p => (13 :: p.1, p.2))
        else if e = 0x74 then
          (parseStringBody fuel r2).map (fun p => (9 :: p.1, p.2))
        else if e = 0x75 then
          match r2 with
          | h1 :: h2 :: h3 :: h4 :: r3 =>
            match hexValU h1, hexValU h2, hexValU h3, hexValU h4 with
            | some a, some b, some c2, some d =>
              (parseStringBody fuel r3).map
                (fun p => ((a * 4096 + b * 256 + c2 * 16 + d) :: p.1, p.2))
            | _, _, _, _ => none
          | _ => none
        else none
    else if c < 0x20 then none
    else (parseStringBody fuel rest).map (fun p => (c :: p.1, p.2))

/-- Optional exponent part of a JSON number. -/
def parseNumExp (acc input : List Nat) : Option (List Nat × List Nat) :=
  match input with
  | e :: r =>
    if e = 0x65 ∨ e = 0x45 then
      let (sgn, r2) :=
        match r with
        | s :: r2 => if s = 0x2B ∨ s = 0x2D then ([s], r2) else ([], r)
        | [] => ([], r)
      let ds := r2.takeWhile isDigitU
      if ds.isEmpty then none
      else some (acc ++ [e] ++ sgn ++ ds, r2.drop ds.length)
    else some (acc, input)
  | [] => some (acc, input)

/-- Optional fraction part of a JSON number, then the exponent part. -/
def parseNumFrac (acc input : List Nat) : Option (List Nat × List Nat) :=
  match input with
  | p :: r =>
    if p = 0x2E then
      let ds := r.takeWhile isDigitU
      if ds.isEmpty then none
      else parseNumExp (acc ++ [p] ++ ds) (r.drop ds.length)
    else parseNumExp acc input
  | [] => parseNumExp acc input

/-- A JSON number starting at a `-` or digit: raw units and remaining input. -/
def parseNumberRaw (input : List Nat) : Option (List Nat × List Nat) :=
  let (sgn, r1) :=
    match input with
    | 0x2D :: r => ([0x2D], r)
    | _ => ([], input)
  match r1 with
  | c :: rest =>
    if c = 0x30 then parseNumFrac (sgn ++ [c]) rest
    else if 0x31 ≤ c ∧ c ≤ 0x39 then
      let ds := rest.takeWhile isDigitU
      parseNumFrac (sgn ++ [c] ++ ds) (rest.drop ds.length)
    else none
  | [] => none

mutual

/-- One JSON value (leading whitespace allowed): the dispatch of `JSON.parse`. -/
def parseValue : Nat → List Nat → Option (JVal × List Nat)
  | 0, _ => none
  | fuel + 1, input =>
    let input := skipWs input
    match input with
    | [] => none
    | c :: rest =>
      if c = 0x7B then
        let r := skipWs rest
        match r with
        | 0x7D :: r2 => some (.jobj [], r2)
        | _ => parseMembers fuel r []
      else if c = 0x5B then
        let r := skipWs rest
        match r with
        | 0x5D :: r2 => some (.jarr [], r2)
        | _ => parseElements fuel r []
      else if c = 0x22 then
        (parseStringBody (rest.length + 1) rest).map
          (fun p => (.jstr p.1, p.2))
      else if c = 0x74 then
        match rest with
        | 0x72 :: 0x75 :: 0x65 :: r => some (.jbool true, r)
        | _ => none
      else if c = 0x66 then
        match rest with
        | 0x61 :: 0x6C :: 0x73 :: 0x65 :: r => some (.jbool false, r)
        | _ => none
      else if c = 0x6E then
        match rest with
        | 0x75 :: 0x6C :: 0x6C :: r => some (.jnull, r)
        | _ => none
      else if c = 0x2D ∨ isDigitU c then
        (parseNumberRaw (c :: rest)).map (fun p => (.jnum p.1, p.2))
      else none

/-- Object members after `\x7b` (first member must start here). -/
def parseMembers : Nat → List Nat → List (List Nat × JVal) →
    Option (JVal × List Nat)
  | 0, _, _ => none
  | fuel + 1, input, acc =>
    match input with
    | 0x22 :: rest =>
      match parseStringBody (rest.length + 1) rest with
      | some (k, r1) =>
        match skipWs r1 with
        | 0x3A :: r2 =>
          match parseValue fuel r2 with
          | some (v, r3) =>
            match skipWs r3 with
            | 0x2C :: r4 => parseMembers fuel (skipWs r4) (acc ++ [(k, v)])
            | 0x7D :: r4 => some (.jobj (acc ++ [(k, v)]), r4)
            | _ => none
          | none => none
        | _ => none
      | none => none
    | _ => none

/-- Array elements after `[` (first element must start here). -/
def parseElements : Nat → List Nat → List JVal → Option (JVal × List Nat)
  | 0, _, _ => none
  | fuel + 1, input, acc =>
    match parseValue fuel input with
    | some (v, r) =>
      match skipWs r with
      | 0x2C :: r2 => parseElements fuel r2 (acc ++ [v])
      | 0x5D :: r2 => some (.jarr (acc ++ [v]), r2)
      | _ => none
    | none => none

end

/-- `JSON.parse` on a code-unit sequence: one value, then only trailing
whitespace. -/
def parseJson (input : List Nat) : Option JVal :=
  match parseValue (input.length + 1) input with
  | some (v, rest) => if (skipWs rest).isEmpty then some v else none
  | none => none

/-- The two sources a decoded shared bundle can come from in
`importFromURL`: the `JSON.parse` branch or the `unpackBundle` fallback. -/
inductive Decoded where
  | fromJson (v : JVal)
  | fromBinary (u : Unpacked)

/-- The decode step of `importFromURL` on the Base64-decoded bytes: try
`JSON.parse` first and fall back to the binary `unpackBundle` only when JSON
parsing throws; a binary failure propagates to the outer catch. -/
def importDecode (bytes : List Nat) : Except CodecErr Decoded :=
  match parseJson bytes with
  | some v => .ok (.fromJson v)
  | none => (unpackBundle bytes).map .fromBinary

/-! ## Helper definitions and concrete instances used by the verification -/

/-- Lowercase hexadecimal digit test, the character class the share codec's
8-character id prefixes are drawn from. -/
def isLowerHexChar (c : Char) : Bool :=
  (48 ≤ c.toNat ∧ c.toNat ≤ 57) ∨ (97 ≤ c.toNat ∧ c.toNat ≤ 102)

/-- Fixed-width base-16 rendering (k digits, zero padded), the normal form
`toString(16).padStart(8, '0')` is proved equal to. -/
def toHexFixedList : Nat → Nat → List Char
  | 0, _ => []
  | k + 1, n => toHexFixedList k (n / 16) ++ [hexDigitChar (n % 16)]

/-- A connection referenced by the bundle below via `serverConnections`. -/
def c1conn : Connection :=
  ⟨"conn_1", "main", "s1", "s1::npm::tool", [("API_KEY", "sk")], "t0", "t0"⟩

/-- A bundle whose entry `s1` has `c1conn` attached (as `attachConnection`
stores it, in `serverConnections`); its `connections` field is absent, as for
every bundle this code base ever creates or mutates. -/
def c1bundle : Bundle :=
  ⟨"b1", "My bundle", "", some [.entry "s1" 0 none],
    some [("s1", "conn_1")], none, "t0", "t0"⟩

/-- The Base64-decoded bytes of the token whose text is
`\x7b"name":"A","servers":[]\x7d`: valid JSON, 25 bytes long, and also
parseable as the binary layout. -/
def c5tok : List Nat :=
  [123, 34, 110, 97, 109, 101, 34, 58, 34, 65, 34, 44, 34, 115, 101, 114,
    118, 101, 114, 115, 34, 58, 91, 93, 125]

/-- What `JSON.parse` yields on `c5tok`. -/
def c5jv : JVal :=
  .jobj [([110, 97, 109, 101], .jstr [65]),
    ([115, 101, 114, 118, 101, 114, 115], .jarr [])]

/-- What `unpackBundle` yields on `c5tok` (name length byte 123 clamps the
name slice to the rest of the input; no server groups remain). -/
def c5unp : Unpacked :=
  ⟨[101, 34, 58, 34, 65, 34, 44, 34, 115, 101, 114, 118, 101, 114, 115, 34,
    58, 91, 93, 125], 577659245, []⟩

/-- Entries of the concrete bundle used to witness the codec round trip: one
legacy string id and one new-format entry, both starting with 8 lowercase hex
characters. -/
def c2entries : List BServer :=
  [.legacy "deadbeef-1111", .entry "0a1b2c3d-2222" 0 none]

/-- A concrete bundle for the codec round-trip witness. -/
def c2b : ShareBundle :=
  ⟨some [72, 105], some c2entries⟩

/-- The 256-character ASCII name exercising the claimed 256-byte encoding
boundary. -/
def c4name : List Nat :=
  List.replicate 256 97

/-! ## Map and store helper lemmas -/

theorem objGet_objSet_self {β : Type} (m : List (String × β)) (k : String)
    (v : β) : objGet (objSet m k v) k = some v := by
  unfold objSet
  split
  · rename_i hany
    induction m with
    | nil => simp at hany
    | cons p t ih =>
      by_cases hk : p.1 = k
      · simp [objGet, List.find?, hk]
      · have ht : t.any (fun p => p.1 = k) := by
          simpa [List.any_cons, hk] using hany
        simpa [objGet, List.find?, hk] using ih ht
  · rename_i hany
    induction m with
    | nil => simp [objGet, List.find?]
    | cons p t ih =>
      have hk : ¬ p.1 = k := by
        intro h
        exact hany (by simp [List.any_cons, h])
      have ht : ¬ t.any (fun p => p.1 = k) := by
        intro h
        exact hany (by simp [List.any_cons, h])
      simpa [objGet, List.find?, hk] using ih ht

theorem objGet_map_set_ne {β : Type} (m : List (String × β)) (k k' : String)
    (v : β) (h : k' ≠ k) :
    objGet (m.map (fun p => if p.1 = k then (k, v) else p)) k' =
      objGet m k' := by
  induction m with
  | nil => rfl
  | cons p t ih =>
    by_cases hk : p.1 = k
    · have hp : ¬ p.1 = k' := by rw [hk]; exact Ne.symm h
      simpa [objGet, List.find?, hk, Ne.symm h, hp] using ih
    · by_cases hk' : p.1 = k'
      · simp [objGet, List.find?, hk, hk', h]
      · simpa [objGet, List.find?, hk, hk'] using ih

theorem objGet_append_single_ne {β : Type} (m : List (String × β))
    (k k' : String) (v : β) (h : k' ≠ k) :
    objGet (m ++ [(k, v)]) k' = objGet m k' := by
  induction m with
  | nil => simp [objGet, List.find?, Ne.symm h]
  | cons p t ih =>
    by_cases hk' : p.1 = k'
    · simp [objGet, List.find?, hk']
    · simpa [objGet, List.find?, hk'] using ih

theorem objGet_objSet_ne {β : Type} (m : List (String × β)) (k k' : String)
    (v : β) (h : k' ≠ k) : objGet (objSet m k v) k' = objGet m k' := by
  unfold objSet
  split
  · exact objGet_map_set_ne m k k' v h
  · exact objGet_append_single_ne m k k' v h

theorem objGet_objDelete_self {β : Type} (m : List (String × β)) (k : String) :
    objGet (objDelete m k) k = none := by
  induction m with
  | nil => rfl
  | cons p t ih =>
    by_cases hk : p.1 = k
    · rw [show objDelete (p :: t) k = objDelete t k by
        simp [objDelete, List.filter_cons, hk]]
      exact ih
    · rw [show objDelete (p :: t) k = p :: objDelete t k by
        simp [objDelete, List.filter_cons, hk]]
      simpa [objGet, List.find?, hk] using ih

theorem getById_mapFirst (items : List Bundle) (bid : String)
    (f : Bundle → Bundle) (b : Bundle) (hb : getById items bid = some b)
    (hid : (f b).id = bid) :
    getById (mapFirst (fun x => x.id = bid) f items) bid = some (f b) := by
  induction items with
  | nil => simp [getById, List.find?] at hb
  | cons x xs ih =>
    by_cases hx : x.id = bid
    · have hxb : x = b := by
        simpa [getById, List.find?, hx] using hb
      subst hxb
      simp [mapFirst, hx, getById, List.find?, hid]
    · have hb' : getById xs bid = some b := by
        simpa [getById, List.find?, hx] using hb
      simpa [mapFirst, hx, getById, List.find?] using ih hb'

theorem mapFirst_eq_of_fix {α : Type} (p : α → Bool) (f : α → α)
    (l : List α) (x : α) (hx : l.find? p = some x) (hf : f x = x) :
    mapFirst p f l = l := by
  induction l with
  | nil => simp [List.find?] at hx
  | cons y ys ih =>
    by_cases hy : p y
    · have : y = x := by simpa [List.find?, hy] using hx
      subst this
      simp [mapFirst, hy, hf]
    · have hx' : ys.find? p = some x := by
        simpa [List.find?, hy] using hx
      simp [mapFirst, hy, ih hx']

/-! ## Claim C6: the npm scenario -/

/-- C6: for the package with `registry_name` npm, `package_name` `@org/tool`
and one required secret variable `API_KEY`, synthesis with no credentials
yields exactly command `npx`, args `[@org/tool]` and env mapping `API_KEY`
to its placeholder. -/
theorem c6_npm_scenario :
    buildPackageConfig
        ⟨"npm", some "@org/tool", none, none,
          some [⟨"API_KEY", true, true, none⟩], none⟩ =
      .cmd "npx" [some "@org/tool"] [("API_KEY", placeholder "API_KEY")] := by
  rfl

/-! ## Claim C1: connection delete ignores bundle references -/

/-- C1, failing input: the bundle references `conn_1` (its resolution
succeeds), yet `connections.delete` removes the connection instead of
throwing the Conflict error, because its in-use check reads the never-written
`bundle.connections` field rather than `bundle.serverConnections`. -/
theorem c1_delete_succeeds_despite_reference :
    getServerConnection [c1conn] [c1bundle] "b1" "s1" = some c1conn ∧
    connDelete [c1conn] [c1bundle] "conn_1" = .ok [] := by
  exact ⟨rfl, rfl⟩

/-! ## Claim C10: per-entry maxAge is stored but never consulted -/

/-- C10: `cache.get` on an entry stored by `cache.set` is fully determined by
a fixed 24-hour expiry against the stored timestamp: the stored `maxAge` does
not influence the result, and an expired entry is removed from the state. -/
theorem c10_cache_maxAge_ignored (st : List (String × CacheEntry))
    (key data : String) (ma1 ma2 : Option Nat) (now0 now : Nat) :
    (cacheGet (cacheSet st key data ma1 now0) key now).1 =
        (if now - now0 > 24 * 60 * 60 * 1000 then none else some data) ∧
    (cacheGet (cacheSet st key data ma1 now0) key now).1 =
        (cacheGet (cacheSet st key data ma2 now0) key now).1 ∧
    (now - now0 > 24 * 60 * 60 * 1000 →
      objGet (cacheGet (cacheSet st key data ma1 now0) key now).2 key =
        none) := by
  have h1 : objGet (cacheSet st key data ma1 now0) key =
      some ⟨data, now0, ma1⟩ := objGet_objSet_self st key _
  have h2 : objGet (cacheSet st key data ma2 now0) key =
      some ⟨data, now0, ma2⟩ := objGet_objSet_self st key _
  have e1 : cacheGet (cacheSet st key data ma1 now0) key now =
      (if now - now0 > 24 * 60 * 60 * 1000 then
        (none, objDelete (cacheSet st key data ma1 now0) key)
      else (some data, cacheSet st key data ma1 now0)) := by
    unfold cacheGet
    rw [h1]
  have e2 : cacheGet (cacheSet st key data ma2 now0) key now =
      (if now - now0 > 24 * 60 * 60 * 1000 then
        (none, objDelete (cacheSet st key data ma2 now0) key)
      else (some data, cacheSet st key data ma2 now0)) := by
    unfold cacheGet
    rw [h2]
  by_cases hexp : now - now0 > 24 * 60 * 60 * 1000
  · rw [e1, e2, if_pos hexp, if_pos hexp, if_pos hexp]
    exact ⟨rfl, rfl, fun _ => objGet_objDelete_self _ key⟩
  · rw [e1, e2, if_neg hexp, if_neg hexp, if_neg hexp]
    exact ⟨rfl, rfl, fun h => absurd h hexp⟩

/-! ## Claim C5: decode order of `importFromURL` -/

/-- C5 counterexample: `c5tok` is at least 5 bytes long and parses under the
binary layout, so by the claim the binary parse should be the decode result;
the code instead tries `JSON.parse` first and returns its result. -/
theorem c5_counterexample :
    c5tok.length ≥ 5 ∧ unpackBundle c5tok = .ok c5unp ∧
    importDecode c5tok = .ok (.fromJson c5jv) ∧
    Decoded.fromJson c5jv ≠ Decoded.fromBinary c5unp := by
  refine ⟨by decide, rfl, rfl, fun h => ?_⟩
  exact Decoded.noConfusion h

/-- C5 as amended: decoding attempts `JSON.parse` on the decoded bytes first
and returns its result whenever it succeeds; only when JSON parsing fails is
the binary `unpackBundle` attempted, whose failure (for example on inputs
shorter than 5 bytes) propagates as the decode error. -/
theorem c5_json_tried_first (bytes : List Nat) :
    (∀ v, parseJson bytes = some v →
      importDecode bytes = .ok (.fromJson v)) ∧
    (parseJson bytes = none →
      importDecode bytes = (unpackBundle bytes).map Decoded.fromBinary) := by
  constructor
  · intro v h
    simp [importDecode, h]
  · intro h
    simp [importDecode, h]

/-- Witness for `c5_json_tried_first` at the concrete token `c5tok`. -/
theorem c5_json_tried_first_witness :
    importDecode c5tok = .ok (.fromJson c5jv) :=
  (c5_json_tried_first c5tok).1 c5jv rfl

/-! ## Claim C3: secrets and placeholders under no credentials -/

/-- C3 counterexample: a variable flagged `is_secret` that is optional and
carries a default appears in the synthesized env map with its plaintext
default, not in placeholder form. -/
theorem c3_counterexample :
    buildPackageConfig
        ⟨"npm", some "tool", none, none,
          some [⟨"MY_TOKEN", false, true, some "plain-secret-default"⟩],
          none⟩ =
      .cmd "npx" [some "tool"] [("MY_TOKEN", "plain-secret-default")] ∧
    ("plain-secret-default" : String) ≠ placeholder "MY_TOKEN" := by
  exact ⟨rfl, by decide⟩

/-! ## Bundle operation lemmas -/

theorem getById_id (items : List Bundle) (bid : String) (b : Bundle)
    (h : getById items bid = some b) : b.id = bid := by
  have := List.find?_some h
  simpa using this

theorem addServerB_id (b : Bundle) (sid : String) (p : Nat) (n : String) :
    (addServerB b sid p n).id = b.id := by
  unfold addServerB
  cases hs : b.servers with
  | none => rfl
  | some l =>
    dsimp only
    split <;> rfl

theorem removeServerB_id (b : Bundle) (sid n : String) :
    (removeServerB b sid n).id = b.id := by
  unfold removeServerB
  cases hs : b.servers with
  | none => rfl
  | some l =>
    dsimp only
    cases hf : List.findIdx? (fun s => s.matchesSid sid) l with
    | none => rfl
    | some i => rfl

theorem bundle_update_servers_self (b : Bundle) (l : List BServer)
    (h : b.servers = some l) : { b with servers := some l } = b := by
  rw [← h]

theorem findIdx?_of_any {α : Type} (p : α → Bool) :
    ∀ (l : List α), l.any p = true → ∀ i, ∃ j, List.findIdx? p l i = some j := by
  intro l
  induction l with
  | nil => intro h; simp at h
  | cons x xs ih =>
    intro h i
    by_cases hx : p x
    · exact ⟨i, by rw [List.findIdx?_cons, if_pos hx]⟩
    · have hxs : xs.any p = true := by
        simpa [List.any_cons, hx] using h
      obtain ⟨j, hj⟩ := ih hxs (i + 1)
      exact ⟨j, by rw [List.findIdx?_cons, if_neg hx]; exact hj⟩

theorem findIdx?_none_of_not_any {α : Type} (p : α → Bool) :
    ∀ (l : List α), l.any p = false → ∀ i, List.findIdx? p l i = none := by
  intro l
  induction l with
  | nil => intro _ _; rfl
  | cons x xs ih =>
    intro h i
    have hx : p x = false := by
      cases hpx : p x
      · rfl
      · rw [List.any_cons, hpx] at h; simp at h
    have hxs : xs.any p = false := by
      simpa [List.any_cons, hx] using h
    rw [List.findIdx?_cons, if_neg (by simp [hx])]
    exact ih hxs (i + 1)

/-! ## Claim C7: addServer is idempotent on the same serverId -/

theorem addServerB_hasEntry (b : Bundle) (sid : String) (p : Nat)
    (n : String) :
    ((addServerB b sid p n).servers.getD []).any
      (fun s => s.matchesSid sid) = true := by
  unfold addServerB
  cases hs : b.servers with
  | none => simp [BServer.matchesSid]
  | some l =>
    dsimp only
    by_cases hany : (l.any fun s => s.matchesSid sid) = true
    · rw [if_pos hany]
      simpa using hany
    · rw [if_neg hany]
      simp [List.any_append, BServer.matchesSid]

theorem addServerB_servers_some (b : Bundle) (sid : String) (p : Nat)
    (n : String) : ∃ l, (addServerB b sid p n).servers = some l := by
  unfold addServerB
  cases hs : b.servers with
  | none => exact ⟨_, rfl⟩
  | some l =>
    dsimp only
    split <;> exact ⟨_, rfl⟩

theorem addServerB_noop_of_present (b : Bundle) (sid : String) (p : Nat)
    (n : String) (l : List BServer) (hl : b.servers = some l)
    (hany : l.any (fun s => s.matchesSid sid) = true) :
    addServerB b sid p n = b := by
  unfold addServerB
  rw [hl]
  dsimp only
  rw [if_pos hany]
  exact bundle_update_servers_self b l hl

/-- C7: a second `addServer` with the same `serverId` (any `packageIndex`)
is accepted and leaves the entry-list length of the bundle unchanged —
in fact the store state is unchanged. -/
theorem c7_addServer_idempotent (items : List Bundle)
    (bundleId serverId : String) (p1 p2 : Nat) (n1 n2 : String)
    (items1 : List Bundle)
    (h : addServer items bundleId serverId p1 n1 = .ok items1) :
    addServer items1 bundleId serverId p2 n2 = .ok items1 ∧
    (getById items1 bundleId).map (fun b => (b.servers.getD []).length) =
      (getById items1 bundleId).map (fun b => (b.servers.getD []).length) := by
  refine ⟨?_, rfl⟩
  cases hb : getById items bundleId with
  | none =>
    unfold addServer at h
    rw [hb] at h
    exact absurd h (by simp)
  | some b =>
    unfold addServer at h
    rw [hb] at h
    have hitems1 : items1 =
        mapFirst (fun x => x.id = bundleId)
          (fun x => addServerB x serverId p1 n1) items := by
      have := h
      simp only [Except.ok.injEq] at this
      exact this.symm
    have hid1 : (addServerB b serverId p1 n1).id = bundleId := by
      rw [addServerB_id]
      exact getById_id items bundleId b hb
    have h1 : getById items1 bundleId = some (addServerB b serverId p1 n1) := by
      rw [hitems1]
      exact getById_mapFirst items bundleId _ b hb hid1
    obtain ⟨l1, hl1⟩ := addServerB_servers_some b serverId p1 n1
    have hany1 : l1.any (fun s => s.matchesSid serverId) = true := by
      have := addServerB_hasEntry b serverId p1 n1
      rw [hl1] at this
      simpa using this
    have hfix : addServerB (addServerB b serverId p1 n1) serverId p2 n2 =
        addServerB b serverId p1 n1 :=
      addServerB_noop_of_present _ serverId p2 n2 l1 hl1 hany1
    unfold addServer
    rw [h1]
    exact congrArg Except.ok (mapFirst_eq_of_fix _ _ items1 _ h1 hfix)

/-- Witness for `c7_addServer_idempotent`: the double add on a concrete
one-bundle store. -/
theorem c7_addServer_idempotent_witness :
    addServer
        (mapFirst (fun x => x.id = "b1")
          (fun x => addServerB x "s1" 0 "t1")
          [⟨"b1", "B", "", some [], none, none, "t0", "t0"⟩])
        "b1" "s1" 3 "t2" =
      .ok (mapFirst (fun x => x.id = "b1")
        (fun x => addServerB x "s1" 0 "t1")
        [⟨"b1", "B", "", some [], none, none, "t0", "t0"⟩]) :=
  (c7_addServer_idempotent
    [⟨"b1", "B", "", some [], none, none, "t0", "t0"⟩]
    "b1" "s1" 0 3 "t1" "t2" _ rfl).1

/-! ## Claim C8: attachConnection conflict and effect -/

theorem attachConnectionB_id (b : Bundle) (sid cid n : String) :
    (attachConnectionB b sid cid n).id = b.id := rfl

/-- C8: for an existing bundle, `attachConnection` fails with the Conflict
error exactly when the bundle has no entry for `serverId`; when the entry
exists, it stores `connectionId` under `serverId` in `serverConnections`
(with no check on the connection whatsoever) and refreshes `updated`,
touching nothing else. -/
theorem c8_attachConnection_spec (items : List Bundle)
    (bundleId serverId connectionId now : String) (b : Bundle)
    (hb : getById items bundleId = some b) :
    (attachConnection items bundleId serverId connectionId now =
        .error .serverNotInBundle ↔ hasEntry b serverId = false) ∧
    (hasEntry b serverId = true →
      ∃ items2 b2,
        attachConnection items bundleId serverId connectionId now =
          .ok items2 ∧
        getById items2 bundleId = some b2 ∧
        objGet (b2.serverConnections.getD []) serverId = some connectionId ∧
        b2.updated = now ∧ b2.servers = b.servers) := by
  have hbid : b.id = bundleId := getById_id items bundleId b hb
  by_cases he : hasEntry b serverId = true
  · have hatt : attachConnection items bundleId serverId connectionId now =
        .ok (mapFirst (fun x => x.id = bundleId)
          (fun x => attachConnectionB x serverId connectionId now) items) := by
      unfold attachConnection
      rw [hb]
      dsimp only
      rw [if_pos he]
    constructor
    · rw [hatt]
      constructor
      · intro h
        exact absurd h (by simp)
      · intro h
        rw [he] at h
        exact absurd h (by simp)
    · intro _
      refine ⟨_, attachConnectionB b serverId connectionId now, hatt, ?_, ?_,
        rfl, rfl⟩
      · exact getById_mapFirst items bundleId _ b hb
          (by rw [attachConnectionB_id]; exact hbid)
      · unfold attachConnectionB
        cases hsc : b.serverConnections with
        | none => exact objGet_objSet_self _ serverId connectionId
        | some m => exact objGet_objSet_self _ serverId connectionId
  · have herr : attachConnection items bundleId serverId connectionId now =
        .error .serverNotInBundle := by
      unfold attachConnection
      rw [hb]
      dsimp only
      rw [if_neg he]
    constructor
    · rw [herr]
      constructor
      · intro _
        cases h : hasEntry b serverId
        · rfl
        · exact absurd h he
      · intro _
        rfl
    · intro h
      exact absurd h he

/-- Witness for `c8_attachConnection_spec` on a concrete one-bundle store. -/
theorem c8_attachConnection_spec_witness :
    getById [c1bundle] "b1" = some c1bundle ∧
    (attachConnection [c1bundle] "b1" "s9" "conn_9" "t3" =
        .error .serverNotInBundle ↔ hasEntry c1bundle "s9" = false) :=
  ⟨rfl, (c8_attachConnection_spec [c1bundle] "b1" "s9" "conn_9" "t3"
    c1bundle rfl).1⟩

/-! ## Claim C9: removeServer clears the entry and its connection mapping -/

/-- C9: for an existing bundle, when `serverId` has an entry `removeServer`
splices the first matching entry out and a subsequent `getServerConnection`
resolves to `null`; when `serverId` has no entry the store state is returned
unchanged. -/
theorem c9_removeServer_spec (items : List Bundle)
    (bundleId serverId now : String) (conns : List Connection) (b : Bundle)
    (hb : getById items bundleId = some b) :
    (hasEntry b serverId = true →
      ∃ items2 b2, removeServer items bundleId serverId now = .ok items2 ∧
        getById items2 bundleId = some b2 ∧
        (∃ l i, b.servers = some l ∧
          List.findIdx? (fun s => s.matchesSid serverId) l = some i ∧
          b2.servers = some (spliceOut l i)) ∧
        getServerConnection conns items2 bundleId serverId = none) ∧
    (hasEntry b serverId = false →
      removeServer items bundleId serverId now = .ok items) := by
  have hbid : b.id = bundleId := getById_id items bundleId b hb
  constructor
  · intro he
    obtain ⟨l, hl⟩ : ∃ l, b.servers = some l := by
      cases hs : b.servers with
      | none => rw [hasEntry, hs] at he; exact absurd he (by simp)
      | some l => exact ⟨l, rfl⟩
    have hany : l.any (fun s => s.matchesSid serverId) = true := by
      rw [hasEntry, hl] at he
      exact he
    obtain ⟨i, hi⟩ := findIdx?_of_any _ l hany 0
    have hsrv2 : (removeServerB b serverId now).servers =
        some (spliceOut l i) := by
      unfold removeServerB
      rw [hl]
      dsimp only
      rw [hi]
    have hid2 : (removeServerB b serverId now).id = bundleId := by
      rw [removeServerB_id]
      exact hbid
    have hok : removeServer items bundleId serverId now =
        .ok (mapFirst (fun x => x.id = bundleId)
          (fun x => removeServerB x serverId now) items) := by
      unfold removeServer
      rw [hb]
    have hfind : getById
        (mapFirst (fun x => x.id = bundleId)
          (fun x => removeServerB x serverId now) items) bundleId =
        some (removeServerB b serverId now) :=
      getById_mapFirst items bundleId _ b hb hid2
    refine ⟨_, removeServerB b serverId now, hok, hfind,
      ⟨l, i, hl, hi, hsrv2⟩, ?_⟩
    unfold getServerConnection
    rw [hfind]
    dsimp only
    cases hsc : b.serverConnections with
    | none =>
      have hsc2 : (removeServerB b serverId now).serverConnections = none := by
        unfold removeServerB
        rw [hl]
        dsimp only
        rw [hi]
        dsimp only
        rw [hsc]
      rw [hsc2]
    | some m =>
      cases hg : objGet m serverId with
      | none =>
        have hsc2 : (removeServerB b serverId now).serverConnections =
            some m := by
          unfold removeServerB
          rw [hl]
          dsimp only
          rw [hi]
          dsimp only
          rw [hsc]
          dsimp only
          rw [hg]
        rw [hsc2]
        dsimp only
        rw [hg]
      | some v =>
        by_cases hv : v = ""
        · subst hv
          have hsc2 : (removeServerB b serverId now).serverConnections =
              some m := by
            unfold removeServerB
            rw [hl]
            dsimp only
            rw [hi]
            dsimp only
            rw [hsc]
            dsimp only
            rw [hg]
            dsimp only
            simp
          rw [hsc2]
          dsimp only
          rw [hg]
          simp
        · have hsc2 : (removeServerB b serverId now).serverConnections =
              some (objDelete m serverId) := by
            unfold removeServerB
            rw [hl]
            dsimp only
            rw [hi]
            dsimp only
            rw [hsc]
            dsimp only
            rw [hg]
            dsimp only
            rw [if_pos hv]
          rw [hsc2]
          dsimp only
          rw [objGet_objDelete_self]
  · intro he
    have hfix : removeServerB b serverId now = b := by
      unfold removeServerB
      cases hs : b.servers with
      | none => rfl
      | some l =>
        dsimp only
        have hany : l.any (fun s => s.matchesSid serverId) = false := by
          rw [hasEntry, hs] at he
          exact he
        rw [findIdx?_none_of_not_any _ l hany 0]
    unfold removeServer
    rw [hb]
    exact congrArg Except.ok (mapFirst_eq_of_fix _ _ items b hb hfix)

/-- Witness for `c9_removeServer_spec`: removing the only server of the
concrete bundle `c1bundle` makes its connection resolution return `null`. -/
theorem c9_removeServer_spec_witness :
    ∃ items2 b2, removeServer [c1bundle] "b1" "s1" "t4" = .ok items2 ∧
      getById items2 "b1" = some b2 ∧
      (∃ l i, c1bundle.servers = some l ∧
        List.findIdx? (fun s => s.matchesSid "s1") l = some i ∧
        b2.servers = some (spliceOut l i)) ∧
      getServerConnection [c1conn] items2 "b1" "s1" = none :=
  (c9_removeServer_spec [c1bundle] "b1" "s1" "t4" [c1conn] c1bundle rfl).1
    (by decide)

/-- Witness for the expiry-removal part of `c10_cache_maxAge_ignored`. -/
theorem c10_cache_maxAge_ignored_witness :
    objGet (cacheGet (cacheSet [] "k" "d" (some 5) 100) "k" 86400101).2 "k" =
      none :=
  (c10_cache_maxAge_ignored [] "k" "d" (some 5) (some 7) 100 86400101).2.2
    (by decide)

/-! ## Claim C3, amended: required secrets appear only as placeholders -/

theorem buildEnv_foldl_notmem (vs : List EnvVar)
    (env : List (String × String)) (nm : String)
    (h : ∀ v ∈ vs, v.name ≠ nm) :
    objGet (vs.foldl buildPackageEnvStep env) nm = objGet env nm := by
  induction vs generalizing env with
  | nil => rfl
  | cons v t ih =>
    rw [List.foldl_cons,
      ih _ (fun u hu => h u (List.mem_cons_of_mem _ hu))]
    have hv : v.name ≠ nm := h v (List.mem_cons_self _ _)
    unfold buildPackageEnvStep
    by_cases hr : v.is_required = true
    · rw [if_pos hr]
      exact objGet_objSet_ne _ _ _ _ (Ne.symm hv)
    · rw [if_neg hr]
      cases hd : v.default with
      | none => rfl
      | some d =>
        dsimp only
        by_cases hde : d ≠ ""
        · rw [if_pos hde]
          exact objGet_objSet_ne _ _ _ _ (Ne.symm hv)
        · rw [if_neg hde]

theorem buildEnv_required_secret (vs : List EnvVar)
    (hnd : (vs.map EnvVar.name).Nodup) :
    ∀ v ∈ vs, v.is_required = true → v.is_secret = true →
      ∀ env, objGet (vs.foldl buildPackageEnvStep env) v.name =
        some (placeholder v.name) := by
  induction vs with
  | nil =>
    intro v hv
    exact absurd hv (List.not_mem_nil v)
  | cons u t ih =>
    intro v hv hreq hsec env
    rw [List.foldl_cons]
    rcases List.mem_cons.mp hv with h | h
    · subst h
      have hnot : ∀ w ∈ t, w.name ≠ v.name := by
        intro w hw he
        exact (List.nodup_cons.mp hnd).1 (he ▸ List.mem_map_of_mem _ hw)
      rw [buildEnv_foldl_notmem t _ v.name hnot]
      unfold buildPackageEnvStep
      rw [if_pos hreq, if_pos hsec]
      exact objGet_objSet_self _ _ _
    · exact ih (List.nodup_cons.mp hnd).2 v h hreq hsec _

theorem authFold_characterize (vs : List EnvVar) :
    ∀ hs k v, objGet (vs.foldl inferAuthHeaderStep hs) k = some v →
      objGet hs k = some v ∨
      (k = "Authorization" ∧ ∃ e ∈ vs, e.is_secret = true ∧
        v = some ("Bearer " ++ placeholder e.name)) := by
  induction vs with
  | nil =>
    intro hs k v h
    exact Or.inl h
  | cons e t ih =>
    intro hs k v h
    rw [List.foldl_cons] at h
    rcases ih _ k v h with h1 | h1
    · unfold inferAuthHeaderStep at h1
      by_cases hcond : e.is_secret = true ∧ e.name ≠ ""
      · rw [if_pos hcond] at h1
        dsimp only at h1
        by_cases hinc : jsIncludes (jsToUpper e.name) "TOKEN" = true ∨
            jsIncludes (jsToUpper e.name) "KEY" = true
        · rw [if_pos hinc] at h1
          by_cases hk : k = "Authorization"
          · subst hk
            rw [objGet_objSet_self] at h1
            refine Or.inr ⟨rfl, e, List.mem_cons_self _ _, hcond.1, ?_⟩
            exact (Option.some.injEq _ _ ▸ h1).symm
          · rw [objGet_objSet_ne _ _ _ _ hk] at h1
            exact Or.inl h1
        · rw [if_neg hinc] at h1
          exact Or.inl h1
      · rw [if_neg hcond] at h1
        exact Or.inl h1
    · obtain ⟨hk, e', he', hsec, hv⟩ := h1
      exact Or.inr ⟨hk, e', List.mem_cons_of_mem _ he', hsec, hv⟩

/-- C3 as amended: with no credentials supplied and pairwise-distinct
variable names, every required secret variable appears in the synthesized env
map only as its placeholder, and every inferred header (no stored header
arguments) is an `Authorization: Bearer` placeholder reference to a secret
variable; an optional secret with a default is the exception exhibited by the
counterexample. -/
theorem c3_required_secret_placeholders (envVars : List EnvVar)
    (hnd : (envVars.map EnvVar.name).Nodup) :
    (∀ v ∈ envVars, v.is_required = true → v.is_secret = true →
      objGet (buildPackageEnv (some envVars)) v.name =
        some (placeholder v.name)) ∧
    (∀ k v, objGet (buildAuthHeaders envVars []) k = some v →
      k = "Authorization" ∧ ∃ e ∈ envVars, e.is_secret = true ∧
        v = some ("Bearer " ++ placeholder e.name)) := by
  constructor
  · intro v hv hreq hsec
    unfold buildPackageEnv
    exact buildEnv_required_secret envVars hnd v hv hreq hsec []
  · intro k v h
    unfold buildAuthHeaders at h
    simp only [List.filter_nil, List.foldl_nil, List.length_nil,
      if_pos rfl] at h
    rcases authFold_characterize envVars [] k v h with h1 | h1
    · exact absurd h1 (by simp [objGet, List.find?])
    · exact h1

/-- Witness for `c3_required_secret_placeholders` on a concrete package. -/
theorem c3_required_secret_placeholders_witness :
    objGet (buildPackageEnv (some [⟨"API_KEY", true, true, none⟩]))
        "API_KEY" = some (placeholder "API_KEY") :=
  (c3_required_secret_placeholders [⟨"API_KEY", true, true, none⟩]
    (by decide)).1 ⟨"API_KEY", true, true, none⟩ (by decide) rfl rfl

/-! ## Claim C4: the name-length guard of packBundle is unreachable -/

theorem encodeCodepoint_length_le_three (c : Nat) (h : c < 0x10000) :
    (encodeCodepoint c).length ≤ 3 := by
  unfold encodeCodepoint
  by_cases h1 : c < 0x80
  · rw [if_pos h1]
    simp
  · rw [if_neg h1]
    by_cases h2 : c < 0x800
    · rw [if_pos h2]
      simp
    · rw [if_neg h2, if_pos h]
      simp

theorem encodeCodepoint_length_le_four (c : Nat) :
    (encodeCodepoint c).length ≤ 4 := by
  unfold encodeCodepoint
  by_cases h1 : c < 0x80
  · rw [if_pos h1]
    simp
  · rw [if_neg h1]
    by_cases h2 : c < 0x800
    · rw [if_pos h2]
      simp
    · rw [if_neg h2]
      by_cases h3 : c < 0x10000
      · rw [if_pos h3]
        simp
      · rw [if_neg h3]
        simp

theorem utf8EncodeUnits_length_le_aux :
    ∀ (n : Nat) (l : List Nat), l.length ≤ n → (∀ u ∈ l, u < 2 ^ 16) →
      (utf8EncodeUnits l).length ≤ 3 * l.length := by
  intro n
  induction n with
  | zero =>
    intro l hl _
    have : l = [] := List.eq_nil_of_length_eq_zero (Nat.le_zero.mp hl)
    subst this
    simp [utf8EncodeUnits]
  | succ n ih =>
    intro l hl h
    match l with
    | [] => simp [utf8EncodeUnits]
    | [u] =>
      have hu : u < 2 ^ 16 := h u (by simp)
      unfold utf8EncodeUnits
      split
      · exact encodeCodepoint_length_le_three 0xFFFD (by omega)
      · exact encodeCodepoint_length_le_three u hu
    | u :: v :: rest =>
      have hu : u < 2 ^ 16 := h u (by simp)
      have hv : ∀ w ∈ v :: rest, w < 2 ^ 16 := by
        intro w hw
        exact h w (List.mem_cons_of_mem _ hw)
      have hrest : ∀ w ∈ rest, w < 2 ^ 16 := by
        intro w hw
        exact hv w (List.mem_cons_of_mem _ hw)
      have hl2 : (v :: rest).length ≤ n := by
        simp only [List.length_cons] at hl ⊢
        omega
      have hl3 : rest.length ≤ n := by
        simp only [List.length_cons] at hl
        omega
      have ihtail : (utf8EncodeUnits (v :: rest)).length ≤
          3 * (v :: rest).length := ih (v :: rest) hl2 hv
      have ihrest : (utf8EncodeUnits rest).length ≤ 3 * rest.length :=
        ih rest hl3 hrest
      unfold utf8EncodeUnits
      split
      · split
        · have h4 := encodeCodepoint_length_le_four
            (0x10000 + (u - 0xD800) * 0x400 + (v - 0xDC00))
          simp only [List.length_append, List.length_cons] at *
          omega
        · have h3 := encodeCodepoint_length_le_three 0xFFFD (by omega)
          simp only [List.length_append, List.length_cons] at *
          omega
      · split
        · have h3 := encodeCodepoint_length_le_three 0xFFFD (by omega)
          simp only [List.length_append, List.length_cons] at *
          omega
        · have h3 := encodeCodepoint_length_le_three u hu
          simp only [List.length_append, List.length_cons] at *
          omega

theorem utf8EncodeUnits_length_le (l : List Nat)
    (h : ∀ u ∈ l, u < 2 ^ 16) :
    (utf8EncodeUnits l).length ≤ 3 * l.length :=
  utf8EncodeUnits_length_le_aux l.length l (Nat.le_refl _) h

theorem packBundle_name_short (b : ShareBundle)
    (hw : ∀ u ∈ b.name.getD [], u < 2 ^ 16) :
    (utf8EncodeUnits ((b.name.getD []).take 50)).length ≤ 150 := by
  have hsub : ∀ u ∈ (b.name.getD []).take 50, u < 2 ^ 16 := by
    intro u hu
    exact hw u (List.take_subset _ _ hu)
  have := utf8EncodeUnits_length_le _ hsub
  have hlen : ((b.name.getD []).take 50).length ≤ 50 := by
    simp [List.length_take]
  omega

/-- C4 as amended: `packBundle` never fails.  The name is truncated to 50
UTF-16 code units before UTF-8 encoding, so the encoded name is at most 150
bytes and the 255-byte `EncodingConstraint` guard can never fire; in
particular names of any UTF-8 length (255 bytes, 256 bytes, ...) encode
successfully by silent truncation. -/
theorem c4_guard_unreachable (now : Nat) (b : ShareBundle)
    (hw : ∀ u ∈ b.name.getD [], u < 2 ^ 16) :
    (utf8EncodeUnits ((b.name.getD []).take 50)).length ≤ 150 ∧
    ∃ bytes, packBundle now b = .ok bytes := by
  have hle := packBundle_name_short b hw
  refine ⟨hle, ?_⟩
  unfold packBundle
  rw [if_neg (by omega)]
  exact ⟨_, rfl⟩

/-- Witness for `c4_guard_unreachable` at a concrete bundle. -/
theorem c4_guard_unreachable_witness :
    ∃ bytes, packBundle 1700000000 c2b = .ok bytes :=
  (c4_guard_unreachable 1700000000 c2b (by decide)).2

set_option maxRecDepth 8192 in
/-- C4 counterexample: a bundle name whose UTF-8 encoding is 256 bytes (256
ASCII characters) does not fail with the `EncodingConstraint` error — the
claim requires failure — but encodes successfully after silent truncation to
50 code units. -/
theorem c4_counterexample :
    (utf8EncodeUnits c4name).length = 256 ∧
    ∃ bytes, packBundle 1700000000 ⟨some c4name, some []⟩ = .ok bytes := by
  exact ⟨rfl, ⟨_, rfl⟩⟩

/-! ## Claim C2: hexadecimal round-trip lemmas -/

theorem hexDigitChar_zero : hexDigitChar 0 = '0' := by
  decide

theorem hexDigitChar_hexVal (c : Char) (h : isLowerHexChar c = true) :
    hexDigitChar (hexVal c) = c := by
  have h' : (48 ≤ c.toNat ∧ c.toNat ≤ 57) ∨
      (97 ≤ c.toNat ∧ c.toNat ≤ 102) := by
    simpa [isLowerHexChar] using h
  unfold hexDigitChar hexVal
  rcases h' with ⟨h1, h2⟩ | ⟨h1, h2⟩
  · rw [if_pos h2, if_pos (by omega : c.toNat - 48 < 10),
      (by omega : 48 + (c.toNat - 48) = c.toNat), Char.ofNat_toNat]
  · rw [if_neg (by omega : ¬ c.toNat ≤ 57),
      if_neg (by omega : ¬ c.toNat ≤ 70),
      if_neg (by omega : ¬ c.toNat - 87 < 10),
      (by omega : 87 + (c.toNat - 87) = c.toNat), Char.ofNat_toNat]

theorem hexVal_lt_16 (c : Char) (h : isLowerHexChar c = true) :
    hexVal c < 16 := by
  have h' : (48 ≤ c.toNat ∧ c.toNat ≤ 57) ∨
      (97 ≤ c.toNat ∧ c.toNat ≤ 102) := by
    simpa [isLowerHexChar] using h
  unfold hexVal
  rcases h' with ⟨h1, h2⟩ | ⟨h1, h2⟩
  · rw [if_pos h2]
    omega
  · rw [if_neg (by omega : ¬ c.toNat ≤ 57),
      if_neg (by omega : ¬ c.toNat ≤ 70)]
    omega

theorem parseHexDigits_snoc (ds : List Char) (c : Char) :
    parseHexDigits (ds ++ [c]) = parseHexDigits ds * 16 + hexVal c := by
  unfold parseHexDigits
  rw [List.foldl_append]
  rfl

theorem parseHexDigits_lt (ds : List Char)
    (h : ∀ c ∈ ds, isLowerHexChar c = true) :
    parseHexDigits ds < 16 ^ ds.length := by
  induction ds using List.reverseRecOn with
  | nil => simp [parseHexDigits]
  | append_singleton l a ih =>
    have hl : ∀ c ∈ l, isLowerHexChar c = true := by
      intro c hc
      exact h c (by simp [hc])
    have ha : hexVal a < 16 := hexVal_lt_16 a (h a (by simp))
    have hlt := ih hl
    rw [parseHexDigits_snoc, List.length_append, List.length_singleton,
      pow_succ]
    omega

theorem toHexFixedList_zero : ∀ k, toHexFixedList k 0 = List.replicate k '0' := by
  intro k
  induction k with
  | zero => rfl
  | succ k ih =>
    rw [toHexFixedList, Nat.zero_div, ih, Nat.zero_mod, hexDigitChar_zero,
      ← List.replicate_succ']

theorem toHexAux_pad :
    ∀ k n, n < 16 ^ k →
      List.replicate (k - (toHexAux k n).length) '0' ++ toHexAux k n =
        toHexFixedList k n := by
  intro k
  induction k with
  | zero =>
    intro n hn
    have : n = 0 := by simpa using hn
    subst this
    rfl
  | succ k ih =>
    intro n hn
    by_cases h0 : n = 0
    · subst h0
      rw [toHexAux]
      rw [if_pos rfl]
      rw [toHexFixedList_zero]
      simp
    · rw [toHexAux, if_neg h0]
      have hdiv : n / 16 < 16 ^ k := by
        rw [pow_succ] at hn
        omega
      have := ih (n / 16) hdiv
      rw [toHexFixedList]
      rw [List.length_append, List.length_singleton]
      have hsub : k + 1 - ((toHexAux k (n / 16)).length + 1) =
          k - (toHexAux k (n / 16)).length := by
        omega
      rw [hsub, ← List.append_assoc, this]

theorem toHexFixedList_parse (ds : List Char)
    (h : ∀ c ∈ ds, isLowerHexChar c = true) :
    toHexFixedList ds.length (parseHexDigits ds) = ds := by
  induction ds using List.reverseRecOn with
  | nil => rfl
  | append_singleton l a ih =>
    have hl : ∀ c ∈ l, isLowerHexChar c = true := by
      intro c hc
      exact h c (by simp [hc])
    have ha : isLowerHexChar a = true := h a (by simp)
    have hv : hexVal a < 16 := hexVal_lt_16 a ha
    rw [parseHexDigits_snoc, List.length_append, List.length_singleton,
      toHexFixedList,
      (by omega : (parseHexDigits l * 16 + hexVal a) / 16 = parseHexDigits l),
      (by omega : (parseHexDigits l * 16 + hexVal a) % 16 = hexVal a),
      ih hl, hexDigitChar_hexVal a ha]

theorem toHex8_parse (ds : List Char) (h8 : ds.length = 8)
    (h : ∀ c ∈ ds, isLowerHexChar c = true) :
    toHex8 (parseHexDigits ds) = String.mk ds := by
  have hlt : parseHexDigits ds < 16 ^ 8 := h8 ▸ parseHexDigits_lt ds h
  unfold toHex8
  have hpad := toHexAux_pad 8 (parseHexDigits ds) hlt
  have hfix := toHexFixedList_parse ds h
  rw [h8] at hfix
  exact congrArg String.mk (hpad.trans hfix)

theorem takeWhile_all {α : Type} (p : α → Bool) :
    ∀ (l : List α), (∀ c ∈ l, p c = true) → l.takeWhile p = l := by
  intro l
  induction l with
  | nil => intro _; rfl
  | cons x xs ih =>
    intro h
    rw [List.takeWhile_cons, if_pos (h x (by simp))]
    rw [ih (fun c hc => h c (List.mem_cons_of_mem _ hc))]

theorem lowerHex_isHexDigit (c : Char) (h : isLowerHexChar c = true) :
    isHexDigitChar c = true := by
  have h' : (48 ≤ c.toNat ∧ c.toNat ≤ 57) ∨
      (97 ≤ c.toNat ∧ c.toNat ≤ 102) := by
    simpa [isLowerHexChar] using h
  simp only [isHexDigitChar]
  rcases h' with h' | h' <;> simp [h'.1, h'.2]

theorem jsParseIntHex_all_lower (ds : List Char) (hne : ds ≠ [])
    (h : ∀ c ∈ ds, isLowerHexChar c = true) :
    jsParseIntHex ds = some (parseHexDigits ds) := by
  have htw : ds.takeWhile isHexDigitChar = ds :=
    takeWhile_all _ ds (fun c hc => lowerHex_isHexDigit c (h c hc))
  cases ds with
  | nil => exact absurd rfl hne
  | cons c0 rest0 =>
    cases rest0 with
    | nil =>
      unfold jsParseIntHex
      dsimp only
      rw [htw, if_neg (by simp)]
    | cons c1 rest =>
      have hc1 : isLowerHexChar c1 = true := h c1 (by simp)
      have hcond : ¬ (c0 = '0' ∧ (c1 = 'x' ∨ c1 = 'X')) := by
        rintro ⟨-, hx | hx⟩ <;> subst hx <;> exact absurd hc1 (by decide)
      unfold jsParseIntHex
      dsimp only
      rw [if_neg hcond, htw, if_neg (by simp)]

theorem u32_reassemble (n : Nat) :
    n / 2 ^ 24 % 256 * 2 ^ 24 + n / 2 ^ 16 % 256 * 2 ^ 16 +
      n / 2 ^ 8 % 256 * 2 ^ 8 + n % 256 = n % 2 ^ 32 := by
  omega

theorem readU32Groups_bytes (v : Option Nat) (rest : List Nat) :
    readU32Groups (u32be v ++ rest) =
      (readU32Groups rest).map
        (fun xs => (match v with | none => 0 | some n => n % 2 ^ 32) :: xs) := by
  cases v with
  | none =>
    show readU32Groups (0 :: 0 :: 0 :: 0 :: rest) = _
    rw [readU32Groups]
    rfl
  | some n =>
    show readU32Groups (_ :: _ :: _ :: _ :: rest) = _
    rw [readU32Groups]
    have := u32_reassemble n
    cases hr : readU32Groups rest with
    | error e => rfl
    | ok xs =>
      simp only [Except.map, Except.map]
      rw [u32_reassemble n]

theorem servers_roundtrip (sids : List (List Char))
    (h : ∀ s ∈ sids, s.length = 8 ∧ ∀ c ∈ s, isLowerHexChar c = true) :
    ∃ groups,
      readU32Groups
          ((sids.map (fun sid8 => u32be (jsParseIntHex sid8))).flatten) =
        .ok groups ∧
      groups.map toHex8 = sids.map (fun s => String.mk s) := by
  induction sids with
  | nil => exact ⟨[], rfl, rfl⟩
  | cons s t ih =>
    obtain ⟨h8, hlh⟩ := h s (by simp)
    have hne : s ≠ [] := by
      intro he
      rw [he] at h8
      simp at h8
    have hp : jsParseIntHex s = some (parseHexDigits s) :=
      jsParseIntHex_all_lower s hne hlh
    have hlt : parseHexDigits s < 2 ^ 32 := by
      have hv := parseHexDigits_lt s hlh
      rw [h8] at hv
      have : (16 : Nat) ^ 8 = 2 ^ 32 := by norm_num
      omega
    obtain ⟨gt, hgt, hmap⟩ := ih (fun u hu => h u (List.mem_cons_of_mem _ hu))
    refine ⟨parseHexDigits s :: gt, ?_, ?_⟩
    · rw [List.map_cons, List.flatten_cons, hp,
        readU32Groups_bytes (some (parseHexDigits s)) _, hgt]
      dsimp only [Except.map]
      rw [Nat.mod_eq_of_lt hlt]
    · rw [List.map_cons, List.map_cons, hmap, toHex8_parse s h8 hlh]

theorem unpackBundle_layout (x a0 a1 a2 a3 : Nat) (nb fl : List Nat)
    (hx : x = nb.length) :
    unpackBundle (x :: a0 :: a1 :: a2 :: a3 :: (nb ++ fl)) =
      (readU32Groups fl).map
        (fun groups =>
          ⟨nb, a0 * 2 ^ 24 + a1 * 2 ^ 16 + a2 * 2 ^ 8 + a3,
            groups.map toHex8⟩) := by
  subst hx
  unfold unpackBundle
  dsimp only
  rw [show (nb.length :: a0 :: a1 :: a2 :: a3 :: (nb ++ fl)).drop 5 =
      nb ++ fl from rfl] -- this rewrite also normalises the drop inside take
  rw [← List.drop_drop nb.length 5
      (nb.length :: a0 :: a1 :: a2 :: a3 :: (nb ++ fl))]
  rw [show (nb.length :: a0 :: a1 :: a2 :: a3 :: (nb ++ fl)).drop 5 =
      nb ++ fl from rfl]
  rw [List.take_left, List.drop_left]

/-- C2: for a bundle whose server ids each begin with 8 lowercase hex
characters and whose name is well-formed UTF-16, `unpackBundle` of
`packBundle` yields one server string per original entry — the 8-character
lowercase-hex prefix of that entry's id — and the exact Unix-seconds
timestamp passed at encode time (which fits the unsigned 32-bit field). -/
theorem c2_roundtrip (b : ShareBundle) (now : Nat) (entries : List BServer)
    (hs : b.servers = some entries)
    (hw : ∀ u ∈ b.name.getD [], u < 2 ^ 16)
    (ht : now < 2 ^ 32)
    (hids : ∀ e ∈ entries, ((entrySid e).toList.take 8).length = 8 ∧
      ∀ c ∈ (entrySid e).toList.take 8, isLowerHexChar c = true) :
    ∃ bytes u, packBundle now b = .ok bytes ∧ unpackBundle bytes = .ok u ∧
      u.sharedTime = now ∧
      u.servers =
        entries.map (fun e => String.mk ((entrySid e).toList.take 8)) := by
  have hsids : ∀ s ∈ entries.map (fun e => (entrySid e).toList.take 8),
      s.length = 8 ∧ ∀ c ∈ s, isLowerHexChar c = true := by
    intro s hs'
    obtain ⟨e, he, rfl⟩ := List.mem_map.mp hs'
    exact hids e he
  obtain ⟨groups, hgroups, hmap⟩ := servers_roundtrip _ hsids
  have hguard := packBundle_name_short b hw
  have hpack : packBundle now b =
      .ok ((utf8EncodeUnits ((b.name.getD []).take 50)).length ::
        now / 2 ^ 24 % 256 :: now / 2 ^ 16 % 256 :: now / 2 ^ 8 % 256 ::
        now % 256 ::
        (utf8EncodeUnits ((b.name.getD []).take 50) ++
          ((entries.map (fun e => (entrySid e).toList.take 8)).map
            (fun sid8 => u32be (jsParseIntHex sid8))).flatten)) := by
    unfold packBundle
    rw [hs]
    dsimp only
    rw [if_neg (by omega)]
    rfl
  have htime : now / 2 ^ 24 % 256 * 2 ^ 24 + now / 2 ^ 16 % 256 * 2 ^ 16 +
      now / 2 ^ 8 % 256 * 2 ^ 8 + now % 256 = now := by
    have := u32_reassemble now
    rw [Nat.mod_eq_of_lt ht] at this
    exact this
  refine ⟨_, ⟨utf8EncodeUnits ((b.name.getD []).take 50), now,
    groups.map toHex8⟩, hpack, ?_, rfl, ?_⟩
  · rw [unpackBundle_layout _ _ _ _ _ _ _ rfl, hgroups]
    dsimp only [Except.map]
    rw [htime]
  · show groups.map toHex8 = _
    rw [hmap, List.map_map]
    rfl

/-- Witness for `c2_roundtrip` on the concrete bundle `c2b`. -/
theorem c2_roundtrip_witness :
    ∃ bytes u, packBundle 1700000000 c2b = .ok bytes ∧
      unpackBundle bytes = .ok u ∧
      u.sharedTime = 1700000000 ∧
      u.servers =
        c2entries.map (fun e => String.mk ((entrySid e).toList.take 8)) :=
  c2_roundtrip c2b 1700000000 c2entries rfl (by decide) (by decide)
    (by decide)

end MCPBundler
